import Mathlib

/-!
Verification of the snooty `parser.py` front end: a shallow embedding of its
option-recovery parser, role/directive node builders, legacy tabs migrator and
name-resolution overrides, together with theorems settling the specification
claims about them.

Strings are embedded as `List Char`; Python's `str` operations used by the
source (`strip`, `split`, `splitlines`, `expandtabs`, slicing) are modelled
explicitly below.
-/

set_option autoImplicit false

namespace Snooty

/-- Python whitespace characters (the ASCII portion relevant to `str.strip()`,
`str.lstrip()` and the regex class `\s`). -/
def isPyWS (c : Char) : Bool :=
  c == ' ' || c == '\t' || c == '\n' || c == '\r' || c == '\x0b' || c == '\x0c'

/-- Python `str.lstrip()`. -/
def pyLstrip (s : List Char) : List Char := s.dropWhile isPyWS

/-- Python `str.rstrip()`. -/
def pyRstrip (s : List Char) : List Char := (s.reverse.dropWhile isPyWS).reverse

/-- Python `str.strip()`. -/
def pyStrip (s : List Char) : List Char := pyRstrip (pyLstrip s)

/-- Python `str.strip(':')`: remove all leading and trailing colons. -/
def stripColons (s : List Char) : List Char :=
  ((s.dropWhile (· == ':')).reverse.dropWhile (· == ':')).reverse

/-- Python `str.split(sep)` for a one-character separator: splits at every
occurrence, keeping empty pieces (`"".split(c) = [""]`). -/
def pySplit (sep : Char) : List Char → List (List Char)
  | [] => [[]]
  | c :: rest =>
    if c == sep then [] :: pySplit sep rest
    else
      match pySplit sep rest with
      | [] => [[c]]
      | l :: ls => (c :: l) :: ls

/-- The backtick character (used by the docutils field-marker pattern). -/
def backquoteChar : Char := Char.ofNat 96

/-!
### The docutils field-marker regular expression

`parse_options` matches each stripped line against
`docutils.parsers.rst.states.Body.patterns['field_marker']`, which is

    :(?![: ])([^:\\]|\\.|:(?!([ `]|$)))*(?<! ):( +|$)

anchored at the start by `re.match`.  Backtracking never changes the outcome
here: a colon consumed by the starred group has its following character outside
`{space, backtick, end}`, so it can never serve as the closing colon (which
requires a following space or the end of the string), and every other starred
element starts with a non-colon character.  Hence the greedy left-to-right scan
below, which stops at the first colon followed by a space or the end, is an
exact, deterministic implementation of the pattern.  `fmGo` scans the portion
after the leading colon and returns the remainder of group 0 on success;
`prev` is the character immediately before the current position (for the
`(?<! )` lookbehind).
-/

def fmGo (prev : Char) : List Char → Option (List Char)
  | [] => none
  | c :: rest =>
    if c == '\\' then
      -- `\\.` consumes the backslash together with the next character.
      match rest with
      | [] => none
      | c2 :: rest2 => (fmGo c2 rest2).map (fun g => '\\' :: c2 :: g)
    else if c == ':' then
      if rest.head? == some ' ' || rest.isEmpty then
        -- candidate closing colon: `(?<! ):( +|$)`
        if prev == ' ' then none
        else some (':' :: rest.takeWhile (· == ' '))
      else if rest.head? == some backquoteChar then none
      else (fmGo ':' rest).map (fun g => ':' :: g)
    else (fmGo c rest).map (fun g => c :: g)

/-- `re.match(field_marker, s)`: `some g` returns the text of group 0
(the marker including the closing colon and any trailing spaces). -/
def matchFieldMarker : List Char → Option (List Char)
  | ':' :: c :: rest =>
    -- leading `:` with lookahead `(?![: ])`
    if c == ':' || c == ' ' then none
    else (fmGo ':' (c :: rest)).map (fun g => ':' :: g)
  | _ => none

/-!
### The option recovery parser (`parse_options`)

Direct model of `parse_options` from `parser.py`.  The key/value store is a
Python `dict`: insertion ordered, assignment to an existing key overwrites the
value in place.
-/

/-- Python `kv[k] = v` on an insertion-ordered dict. -/
def dictInsert (kv : List (List Char × List Char)) (k v : List Char) :
    List (List Char × List Char) :=
  match kv with
  | [] => [(k, v)]
  | (k', v') :: rest => if k' == k then (k', v) :: rest else (k', v') :: dictInsert rest k v

/-- Python `kv[k]` as an `Option` (`none` would be a `KeyError`). -/
def dictGet? (kv : List (List Char × List Char)) (k : List Char) : Option (List Char) :=
  match kv with
  | [] => none
  | (k', v') :: rest => if k' == k then some v' else dictGet? rest k

/-- Python `kv[k] += suffix` (total variant; leaves `kv` unchanged when the key
is absent, a case `parse_options` never reaches — see `parse_options_total`). -/
def dictAppend (kv : List (List Char × List Char)) (k suffix : List Char) :
    List (List Char × List Char) :=
  match kv with
  | [] => []
  | (k', v') :: rest =>
    if k' == k then (k', v' ++ suffix) :: rest else (k', v') :: dictAppend rest k suffix

/-- The loop of `parse_options` over the lines after the invocation line.
State: active key (`current_key`), accumulated mapping (`kv`), and
`base_indentation` (`0` meaning "not yet established", as in the source). -/
def parseOptsGo : List (List Char) → Option (List Char) → List (List Char × List Char) →
    Nat → List (List Char × List Char)
  | [], _, kv, _ => kv
  | line :: rest, currentKey, kv, baseIndentation =>
    let stripped := pyStrip line
    if stripped.isEmpty then parseOptsGo rest currentKey kv baseIndentation
    else
      -- PAT_WHITESPACE = `^\x20*` always matches; its match length is the indentation.
      let indentation := (line.takeWhile (· == ' ')).length
      let base := if baseIndentation == 0 then indentation else baseIndentation
      match matchFieldMarker stripped with
      | some g =>
        let key := stripColons (pyStrip g)
        parseOptsGo rest (some key) (dictInsert kv key (stripped.drop g.length)) base
      | none =>
        if indentation == base then kv
        else
          match currentKey with
          | some k =>
            if k.isEmpty then parseOptsGo rest currentKey kv base
            else parseOptsGo rest currentKey (dictAppend kv k ('\n' :: line.drop indentation)) base
          | none => parseOptsGo rest currentKey kv base

/-- `parse_options(block_text)`: split on newlines, skip the invocation line
(index 0), and run the recovery loop. -/
def parse_options (blockText : String) : List (List Char × List Char) :=
  match pySplit '\n' blockText.toList with
  | [] => []
  | _ :: rest => parseOptsGo rest none [] 0

-- Sanity checks against hand-traced runs of the source.
example : matchFieldMarker ":key: a".toList = some ":key: ".toList := by decide
example : matchFieldMarker ":a:b: c".toList = some ":a:b: ".toList := by decide
example : matchFieldMarker ":a : b".toList = none := by decide
example : matchFieldMarker ":ab:cd".toList = none := by decide
example : matchFieldMarker ":key:".toList = some ":key:".toList := by decide
example : parse_options ".. x::\n   :key: a\n      b" = [("key".toList, "a\nb".toList)] := by decide
example : parse_options ".. x::\n   body" = [] := by decide

/-!
### The role regular expression `PAT_EXPLICIT_TILE`

    ^(?P<label>.+?)\s*(?<!\x00)<(?P<target>.*?)>$     (with re.DOTALL)

The lazy `.+?` makes the engine try split points left to right, so the match
uses the first `<` at position ≥ 1 whose preceding character is not `\x00`
(the `\s*` in between can only absorb whitespace, so the split candidates are
exactly the `<` positions).  `(.*?)>$` then requires the whole string to end in
`>` (Python's `$` also matches just before one final newline) and captures
everything up to that final `>`.  On failure at the first candidate the tail
condition — which depends only on the end of the string — fails for every later
candidate as well, so the scan below is exact.
-/

/-- `(.*?)>$` applied to the remainder after the chosen `<`: succeeds when the
remainder ends in `>` (allowing one trailing newline after it), capturing the
text before that final `>`. -/
def tileTail (t : List Char) : Option (List Char) :=
  match t.reverse with
  | '>' :: rev => some rev.reverse
  | '\n' :: '>' :: rev => some rev.reverse
  | _ => none

/-- The label group: the text before the `<`, with the greedy `\s*` stripping
trailing whitespace, except that the lazy `.+?` keeps at least one character. -/
def tileLabel (pre : List Char) : List Char :=
  let t := pyRstrip pre
  if t.isEmpty then pre.take 1 else t

/-- Left-to-right scan for the first eligible `<`.  `pre` is the text consumed
so far, `prev` the character just before the current position (for the
`(?<!\x00)` lookbehind). -/
def tileGo (prev : Char) (pre : List Char) : List Char → Option (List Char × List Char)
  | [] => none
  | c :: rest =>
    if c == '<' && prev != '\x00' then
      match tileTail rest with
      | some target => some (tileLabel pre, target)
      | none => tileGo c (pre ++ [c]) rest
    else tileGo c (pre ++ [c]) rest

/-- `PAT_EXPLICIT_TILE.match(text)`: `some (label, target)` on a match.
The first character always belongs to the label (`.+?` is non-empty). -/
def PAT_EXPLICIT_TILE_match (s : List Char) : Option (List Char × List Char) :=
  match s with
  | [] => none
  | c :: rest => tileGo c [c] rest

-- Checked against CPython `re` on the same pattern.
example : PAT_EXPLICIT_TILE_match "A<B<C>".toList = some ("A".toList, "B<C".toList) := by decide
example : PAT_EXPLICIT_TILE_match "Some Label <some-target>".toList =
    some ("Some Label".toList, "some-target".toList) := by decide
example : PAT_EXPLICIT_TILE_match "a\x00<b>".toList = none := by decide
example : PAT_EXPLICIT_TILE_match "a\x00<b<c>".toList = some ("a\x00<b".toList, "c".toList) := by
  decide
example : PAT_EXPLICIT_TILE_match "<x>".toList = none := by decide
example : PAT_EXPLICIT_TILE_match "  <x>".toList = some (" ".toList, "x".toList) := by decide
example : PAT_EXPLICIT_TILE_match "A<>".toList = some ("A".toList, "".toList) := by decide

/-!
### Node model

A closed datatype for the nodes `parser.py` constructs.  `parsedBody` stands
for the children produced by handing lines to the external markup engine
(`state.nested_parse`), which is out of scope per the spec; `raw` is
`docutils.nodes.FixedTextElement` with its contained text; `errorNode` is the
system message produced by `document.reporter.error`.
-/

/-- A directive option value (`Dict[str, object]` holds strings and booleans). -/
inductive OptVal where
  | str (s : String)
  | bool (b : Bool)
deriving DecidableEq

inductive Node where
  | directive (name : String) (options : List (String × OptVal)) (children : List Node)
  | argumentNode (text : String)
  | raw (text : String)
  | parsedBody (lines : List (List Char))
  | errorNode (msg : String) (line : Nat)

/-- The name a downstream consumer would read off a directive node. -/
def nodeName : Node → Option String
  | .directive n _ _ => some n
  | _ => none

/-- `SPECIAL_DIRECTIVES` from `parser.py`. -/
def SPECIAL_DIRECTIVES : List String :=
  ["code-block", "include", "tabs-drivers", "tabs", "tabs-platforms", "only"]

/-- `self.arguments[0].split('\n')[0]`. -/
def firstLineOf (s : String) : String :=
  String.mk ((pySplit '\n' s.toList).headD [])

/-- `Directive.run` from `parser.py`.  `arguments` is `self.arguments`,
`blockText` is `self.block_text` (invocation line + options + body),
`content` is `self.content` (the body lines).  For a special-set name the body
child is `docutils.nodes.FixedTextElement()` — constructed with no arguments,
hence empty text; otherwise the body is handed to the markup engine. -/
def Directive_run (name : String) (arguments : List String) (blockText : String)
    (content : List (List Char)) : List Node :=
  let argChildren : List Node :=
    match arguments with
    | [] => []
    | arg :: _ => [Node.argumentNode (firstLineOf arg)]
  let options : List (String × OptVal) :=
    (parse_options blockText).map (fun p => (String.mk p.1, OptVal.str (String.mk p.2)))
  let bodyChild : Node :=
    if SPECIAL_DIRECTIVES.contains name then Node.raw "" else Node.parsedBody content
  [Node.directive name options (argChildren ++ [bodyChild])]

/-!
### `prepare_viewlist`
-/

/-- Python `str.expandtabs()` (tab size 8; the column resets after `\n`/`\r`). -/
def expandTabsGo (col : Nat) : List Char → List Char
  | [] => []
  | c :: rest =>
    if c == '\t' then
      List.replicate (8 - col % 8) ' ' ++ expandTabsGo (col + (8 - col % 8)) rest
    else if c == '\n' || c == '\r' then c :: expandTabsGo 0 rest
    else c :: expandTabsGo (col + 1) rest

/-- Line-break characters recognised by `str.splitlines()` (ASCII portion). -/
def isLineBreak (c : Char) : Bool :=
  c == '\n' || c == '\r' || c == '\x0b' || c == '\x0c'

/-- Python `str.splitlines()`: no trailing empty piece for a trailing break,
`\r\n` counts as a single break, `"".splitlines() = []`. -/
def pySplitlines : List Char → List (List Char)
  | [] => []
  | '\r' :: '\n' :: rest => [] :: pySplitlines rest
  | c :: rest =>
    if isLineBreak c then [] :: pySplitlines rest
    else
      match pySplitlines rest with
      | [] => [[c]]
      | l :: ls => (c :: l) :: ls

/-- The margin loop of `prepare_viewlist`: minimum indentation over the lines
whose `lstrip()` is non-empty (`none` plays the role of `sys.maxsize`). -/
def pvMargin : List (List Char) → Option Nat
  | [] => none
  | l :: rest =>
    let tailMargin := pvMargin rest
    if (pyLstrip l).isEmpty then tailMargin
    else
      let indent := l.length - (pyLstrip l).length
      match tailMargin with
      | none => some indent
      | some m => some (min m indent)

/-- `prepare_viewlist(text, ignore)` from `parser.py`. -/
def prepare_viewlist (text : String) (ignore : Nat) : List (List Char) :=
  let lines0 := pySplitlines (expandTabsGo 0 text.toList)
  let margin := pvMargin (lines0.drop ignore)
  let rebasedTail :=
    match margin with
    | some m => (lines0.drop ignore).map (fun l => l.drop m)
    | none => lines0.drop ignore
  let lines1 := (lines0.take ignore).map pyLstrip ++ rebasedTail
  let lines2 := lines1.dropWhile List.isEmpty
  if (lines2.getLastD []).isEmpty then lines2 else lines2 ++ [[]]

example : prepare_viewlist "first\n   a\n     b" 1 =
    ["first".toList, "a".toList, "  b".toList, []] := by decide
example : prepare_viewlist "a\n\n\n" 1 = ["a".toList, [], []] := by decide
example : prepare_viewlist "\n\n  x" 1 = ["x".toList, []] := by decide

/-!
### The legacy tabs migrator

The YAML loader and the `check_type` validator live in the `gizaparser`
package, which is not among the sources; following the spec they are treated
as a structured-data decoder yielding typed values or structured errors.
-/

/-- `LegacyTabDefinition` (`@checked` dataclass): tracked source line offset,
id, optional title, raw content text. -/
structure LegacyTabDefinition where
  lineOffset : Nat
  id : String
  title : Option String
  content : String
deriving DecidableEq

/-- `LegacyTabsDefinition` (`@checked` dataclass). -/
structure LegacyTabsDefinition where
  lineOffset : Nat
  hidden : Option Bool
  tabs : List LegacyTabDefinition
deriving DecidableEq

/-- Modelled from the spec: the shape of a decoded structured-data value as
produced by the out-of-scope loader `load_yaml` ("the structured-data loader
used to decode embedded legacy definitions, assumed to yield validated typed
values or structured errors").  Mappings carry the tracked source-line offset
(`__line__`) the loader records for them. -/
inductive YamlValue where
  | str (s : String)
  | boolVal (b : Bool)
  | intVal (n : Int)
  | listVal (items : List YamlValue)
  | mapVal (lineOffset : Nat) (entries : List (String × YamlValue))
  | nullVal

/-- Lookup of a key in a decoded mapping. -/
def yamlLookup (entries : List (String × YamlValue)) (k : String) : Option YamlValue :=
  match entries with
  | [] => none
  | (k', v) :: rest => if k' == k then some v else yamlLookup rest k

/-- Modelled from the spec: a structured error from `check_type`
(`gizaparser.flutter.LoadError`, not among the sources).  `badLine` is
`getattr(err.bad_data, '__line__', 0)`: the offending item's tracked line
offset, `0` when the offending data carries none. -/
structure LoadErr where
  msg : String
  badLine : Nat
deriving DecidableEq

/-- Modelled from the spec: `check_type(LegacyTabDefinition, ·)` — validate one
legacy tab item ("ordered list of tab items {id, optional title, raw content
text, source-line offset}"); a wrong-typed or missing field yields a structured
error carrying that item's tracked line offset. -/
def check_type_tab (v : YamlValue) : Except LoadErr LegacyTabDefinition :=
  match v with
  | .mapVal line entries =>
    match yamlLookup entries "id" with
    | some (.str i) =>
      let titleChecked : Except LoadErr (Option String) :=
        match yamlLookup entries "title" with
        | none => .ok none
        | some (.str t) => .ok (some t)
        | some _ => .error ⟨"title: expected string", line⟩
      match titleChecked with
      | .error e => .error e
      | .ok t =>
        match yamlLookup entries "content" with
        | some (.str c) => .ok ⟨line, i, t, c⟩
        | _ => .error ⟨"content: expected string", line⟩
    | _ => .error ⟨"id: expected string", line⟩
  | _ => .error ⟨"expected a mapping", 0⟩

/-- Modelled from the spec: validation of the list of legacy tab items; the
first offending item determines the error. -/
def check_type_tabList : List YamlValue → Except LoadErr (List LegacyTabDefinition)
  | [] => .ok []
  | v :: rest =>
    match check_type_tab v with
    | .error e => .error e
    | .ok t =>
      match check_type_tabList rest with
      | .error e => .error e
      | .ok ts => .ok (t :: ts)

/-- Modelled from the spec: `check_type(LegacyTabsDefinition, parsed)` — the
top level is a mapping with an optional boolean `hidden` flag and a required
list `tabs` of tab items; on schema/type mismatch a structured error is
raised instead of a value. -/
def check_type_tabs (v : YamlValue) : Except LoadErr LegacyTabsDefinition :=
  match v with
  | .mapVal line entries =>
    let hiddenChecked : Except LoadErr (Option Bool) :=
      match yamlLookup entries "hidden" with
      | none => .ok none
      | some (.boolVal b) => .ok (some b)
      | some _ => .error ⟨"hidden: expected bool", line⟩
    match hiddenChecked with
    | .error e => .error e
    | .ok hidden =>
      match yamlLookup entries "tabs" with
      | some (.listVal items) =>
        match check_type_tabList items with
        | .error e => .error e
        | .ok ts => .ok ⟨line, hidden, ts⟩
      | _ => .error ⟨"tabs: expected a list", line⟩
  | _ => .error ⟨"expected a mapping", 0⟩

/-- `self.name.split('-', 1)[-1]`: everything after the first `-`, or the whole
name when it contains none. -/
def afterFirstDash : List Char → Option (List Char)
  | [] => none
  | c :: rest => if c == '-' then some rest else afterFirstDash rest

def splitDashLast (s : String) : String :=
  String.mk ((afterFirstDash s.toList).getD s.toList)

example : splitDashLast "tabs-platforms" = "platforms" := by decide
example : splitDashLast "tabs" = "tabs" := by decide

/-- `TabsDirective.make_tab_node`: a `tab` directive node with the inline-parsed
id as its argument, empty options, and the item's re-based content handed to
the markup engine. -/
def make_tab_node (child : LegacyTabDefinition) : Node :=
  Node.directive "tab" []
    [Node.argumentNode child.id, Node.parsedBody (prepare_viewlist child.content 1)]

/-- The legacy-migration branch of `TabsDirective.run` (everything after the
`tabs:` heuristic has fired and `load_yaml` has produced `parsed`). -/
def TabsDirective_legacy (name : String) (lineno : Nat) (parsed : YamlValue) : List Node :=
  match check_type_tabs parsed with
  | .error err => [Node.errorNode err.msg (lineno + err.badLine + 1)]
  | .ok loaded =>
    let tabset := splitDashLast name
    let options : List (String × OptVal) :=
      (if loaded.hidden == some true then [("hidden", OptVal.bool true)] else []) ++
      (if tabset ≠ "" ∧ tabset ≠ "tabs" then [("tabset", OptVal.str tabset)] else [])
    [Node.directive "tabs" options (loaded.tabs.map make_tab_node)]

/-- `TabsDirective.run`: the old-syntax heuristic is a line of the content
exactly equal to `tabs:`; otherwise the generic `Directive.run` takes over.
`parsed` stands for `load_yaml('\n'.join(self.content))[0]`, the decoded first
document from the out-of-scope loader. -/
def TabsDirective_run (name : String) (lineno : Nat) (content : List (List Char))
    (parsed : YamlValue) (arguments : List String) (blockText : String) : List Node :=
  if content.any (fun l => l == "tabs:".toList) then TabsDirective_legacy name lineno parsed
  else Directive_run name arguments blockText content

/-!
### Name resolution overrides
-/

/-- The builders a directive name can resolve to. -/
inductive DirectiveBuilder where
  | tabsDirective
  | genericDirective
deriving DecidableEq

/-- The handlers a role name can resolve to. -/
inductive RoleHandler where
  | handleRole
deriving DecidableEq

/-- Python `s.startswith(p)` (first argument the string, second the prefix). -/
def pyStartswith : List Char → List Char → Bool
  | _, [] => true
  | [], _ :: _ => false
  | c :: s', p :: p' => p == c && pyStartswith s' p'

example : pyStartswith "tabs-platforms".toList "tabs".toList = true := by decide
example : pyStartswith "note".toList "tabs".toList = false := by decide

/-- `lookup_directive`: installed as `docutils.parsers.rst.directives.directive`,
whose contract allows `none` to reject a name; this override never does. -/
def lookup_directive (directiveName : String) : Option DirectiveBuilder × List Node :=
  if pyStartswith directiveName.toList "tabs".toList then (some .tabsDirective, [])
  else (some .genericDirective, [])

/-- `lookup_role`: installed as `docutils.parsers.rst.roles.role`; every name
resolves to `handle_role`. -/
def lookup_role (roleName : String) (lineno : Nat) : Option RoleHandler × List Node :=
  (some .handleRole, [])

/-!
### The role node builder
-/

/-- The label attached to a role node: either the tagged inline-parseable text
dict (carrying the source line) built on a regex match, or the plain raw text. -/
inductive RoleLabel where
  | taggedText (value : String) (line : Nat)
  | plain (text : String)
deriving DecidableEq

structure RoleNode where
  name : String
  raw : String
  label : RoleLabel
  target : String
deriving DecidableEq

/-- `role.__init__` from `parser.py` (also the essence of `handle_role`). -/
def role_init (name : String) (text : String) (lineno : Nat) : RoleNode :=
  match PAT_EXPLICIT_TILE_match text.toList with
  | some (l, t) => ⟨name, text, .taggedText (String.mk l) lineno, String.mk t⟩
  | none => ⟨name, text, .plain text, text⟩

/-!
### A checked variant of `parse_options`

`parse_optionsChecked` mirrors `parse_options` but makes every way the Python
code could raise explicit as an `Option` failure: the two `assert`s (the
`PAT_WHITESPACE` match and the non-`None` group 0 of a field-marker match) and
the `kv[current_key] += ...` dictionary access, which raises `KeyError` when
the key is absent.
-/

/-- `PAT_WHITESPACE.match(line)` for the regex `^\x20*`: a star matches every
string (possibly with an empty prefix), so this is always `some`; the `assert
whitespace_match is not None` in the source corresponds to the `none` branch
of the `match` in `parseOptsGoChecked`. -/
def pwMatch (line : List Char) : Option (List Char) :=
  some (line.takeWhile (· == ' '))

/-- The loop of `parse_options` with explicit failure: `none` models an
`AssertionError` or `KeyError`. -/
def parseOptsGoChecked : List (List Char) → Option (List Char) →
    List (List Char × List Char) → Nat → Option (List (List Char × List Char))
  | [], _, kv, _ => some kv
  | line :: rest, currentKey, kv, baseIndentation =>
    let stripped := pyStrip line
    if stripped.isEmpty then parseOptsGoChecked rest currentKey kv baseIndentation
    else
      match pwMatch line with
      | none => none  -- assert whitespace_match is not None
      | some ws =>
        let indentation := ws.length
        let base := if baseIndentation == 0 then indentation else baseIndentation
        match matchFieldMarker stripped with
        | some g =>
          -- group 0 of a successful match is never None, so the second assert holds
          let key := stripColons (pyStrip g)
          parseOptsGoChecked rest (some key) (dictInsert kv key (stripped.drop g.length)) base
        | none =>
          if indentation == base then some kv
          else
            match currentKey with
            | some k =>
              if k.isEmpty then parseOptsGoChecked rest currentKey kv base
              else
                match dictGet? kv k with
                | none => none  -- KeyError on kv[current_key]
                | some v =>
                  parseOptsGoChecked rest currentKey
                    (dictInsert kv k (v ++ '\n' :: line.drop indentation)) base
            | none => parseOptsGoChecked rest currentKey kv base

/-- `parse_options` with explicit failure. -/
def parse_optionsChecked (blockText : String) : Option (List (List Char × List Char)) :=
  match pySplit '\n' blockText.toList with
  | [] => some []
  | _ :: rest => parseOptsGoChecked rest none [] 0

/-!
### Dictionary lemmas
-/

theorem dictGet?_dictInsert_self (kv : List (List Char × List Char)) (k v : List Char) :
    dictGet? (dictInsert kv k v) k = some v := by
  induction kv with
  | nil => simp [dictInsert, dictGet?]
  | cons p rest ih =>
    obtain ⟨k', v'⟩ := p
    by_cases h : (k' == k) = true
    · simp [dictInsert, dictGet?, h]
    · simp [dictInsert, dictGet?, h, ih]

/-- When the key is present, Python's `kv[k] += suffix` coincides with reading
the value and re-assigning the extended one. -/
theorem dictAppend_eq_dictInsert (kv : List (List Char × List Char)) (k v suffix : List Char)
    (h : dictGet? kv k = some v) :
    dictAppend kv k suffix = dictInsert kv k (v ++ suffix) := by
  induction kv with
  | nil => simp [dictGet?] at h
  | cons p rest ih =>
    obtain ⟨k', v'⟩ := p
    by_cases hk : (k' == k) = true
    · simp only [dictGet?, hk, if_true] at h
      obtain rfl : v' = v := by injection h
      simp [dictAppend, dictInsert, hk]
    · simp only [dictGet?, hk, Bool.false_eq_true, if_false] at h
      simp [dictAppend, dictInsert, hk, ih h]

/-!
### List lemmas about splitting and indentation
-/

theorem pySplit_append (sep : Char) (a b : List Char) (h : sep ∉ a) :
    pySplit sep (a ++ sep :: b) = a :: pySplit sep b := by
  induction a with
  | nil => simp [pySplit]
  | cons c a' ih =>
    have hc : (c == sep) = false := by
      rw [beq_eq_false_iff_ne]
      intro hh
      exact h (hh ▸ List.mem_cons_self c a')
    have ha' : sep ∉ a' := fun hh => h (List.mem_cons_of_mem c hh)
    simp [pySplit, hc, ih ha']

theorem pySplit_no_sep (sep : Char) (a : List Char) (h : sep ∉ a) :
    pySplit sep a = [a] := by
  induction a with
  | nil => rfl
  | cons c a' ih =>
    have hc : (c == sep) = false := by
      rw [beq_eq_false_iff_ne]
      intro hh
      exact h (hh ▸ List.mem_cons_self c a')
    have ha' : sep ∉ a' := fun hh => h (List.mem_cons_of_mem c hh)
    simp only [pySplit, hc, Bool.false_eq_true, if_false, ih ha']

theorem newline_not_mem_indented (n : Nat) (w : List Char) (hw : '\n' ∉ w) :
    '\n' ∉ (List.replicate n ' ' ++ w) := by
  intro h
  rcases List.mem_append.mp h with h | h
  · exact absurd (List.eq_of_mem_replicate h) (by decide)
  · exact hw h

theorem pyLstrip_replicate_append (n : Nat) (l : List Char) :
    pyLstrip (List.replicate n ' ' ++ l) = pyLstrip l := by
  induction n with
  | zero => rfl
  | succ n ih => simpa [pyLstrip, List.replicate_succ, List.dropWhile] using ih

theorem pyStrip_replicate_append (n : Nat) (l : List Char) :
    pyStrip (List.replicate n ' ' ++ l) = pyStrip l := by
  unfold pyStrip
  rw [pyLstrip_replicate_append]

theorem takeWhile_space_replicate_append (n : Nat) (l : List Char)
    (h : l.takeWhile (· == ' ') = []) :
    (List.replicate n ' ' ++ l).takeWhile (· == ' ') = List.replicate n ' ' := by
  induction n with
  | zero => simpa using h
  | succ n ih => simpa [List.replicate_succ, List.takeWhile] using ih

theorem drop_replicate_append (n : Nat) (c : Char) (l : List Char) :
    (List.replicate n c ++ l).drop n = l := by
  have h := List.drop_left (List.replicate n c) l
  rwa [List.length_replicate] at h

theorem parse_options_eq_go (blockText : String) (invocation : List Char)
    (rest : List (List Char))
    (h : pySplit '\n' blockText.toList = invocation :: rest) :
    parse_options blockText = parseOptsGo rest none [] 0 := by
  unfold parse_options
  rw [h]

/-!
### Spec-side definitions used to state refuted claims
-/

/-- Modelled from the spec (claim C3's reading of option recovery): identical
to `parseOptsGo` except that the base indentation is locked to the indentation
of the first non-blank line — including when that indentation is zero.
`none` means "no non-blank line seen yet". -/
def parseOptsGoLockedBase : List (List Char) → Option (List Char) →
    List (List Char × List Char) → Option Nat → List (List Char × List Char)
  | [], _, kv, _ => kv
  | line :: rest, currentKey, kv, lockedBase =>
    let stripped := pyStrip line
    if stripped.isEmpty then parseOptsGoLockedBase rest currentKey kv lockedBase
    else
      let indentation := (line.takeWhile (· == ' ')).length
      let base := lockedBase.getD indentation
      match matchFieldMarker stripped with
      | some g =>
        let key := stripColons (pyStrip g)
        parseOptsGoLockedBase rest (some key) (dictInsert kv key (stripped.drop g.length))
          (some base)
      | none =>
        if indentation == base then kv
        else
          match currentKey with
          | some k =>
            if k.isEmpty then parseOptsGoLockedBase rest currentKey kv (some base)
            else
              parseOptsGoLockedBase rest currentKey
                (dictAppend kv k ('\n' :: line.drop indentation)) (some base)
          | none => parseOptsGoLockedBase rest currentKey kv (some base)

/-- `parse_options` as claim C3 describes it (base locked at the first
non-blank line, zero included). -/
def parse_options_lockedBase (blockText : String) : List (List Char × List Char) :=
  match pySplit '\n' blockText.toList with
  | [] => []
  | _ :: rest => parseOptsGoLockedBase rest none [] none

/-- Modelled from the spec (amended claim C7): the re-basing normalization —
strip the common leading margin, i.e. the minimum indentation over the
whitespace-non-blank lines after the first; left-strip the first line; drop the
leading empty lines; and append one trailing empty separator line when the
result is non-empty and does not already end with one. -/
def prepare_viewlist_spec (text : String) : List (List Char) :=
  let lines := pySplitlines (expandTabsGo 0 text.toList)
  let firstPart := (lines.take 1).map pyLstrip
  let tailPart := lines.drop 1
  let margin :=
    ((tailPart.filter (fun l => !(pyLstrip l).isEmpty)).map
        (fun l => l.length - (pyLstrip l).length)).foldr
      (fun n acc => match acc with | none => some n | some m => some (min n m)) none
  let rebased :=
    match margin with
    | some m => tailPart.map (fun l => l.drop m)
    | none => tailPart
  let result := (firstPart ++ rebased).dropWhile List.isEmpty
  match result.getLast? with
  | some l => if l.isEmpty then result else result ++ [[]]
  | none => result

/-- "The result ends with exactly one trailing blank separator line": the last
line is empty and the one before it (if any) is not. -/
def endsWithExactlyOneBlankLine (ls : List (List Char)) : Bool :=
  match ls.reverse with
  | [] => false
  | last :: before =>
    last.isEmpty &&
      (match before with
       | [] => true
       | p :: _ => !p.isEmpty)

example : endsWithExactlyOneBlankLine ["a".toList, []] = true := by decide
example : endsWithExactlyOneBlankLine ["a".toList, [], []] = false := by decide

/-!
### Scan lemmas for `PAT_EXPLICIT_TILE`
-/

/-- The scan walks through a block of text containing no `<` without
attempting a split. -/
theorem tileGo_through (a : List Char) :
    ∀ (prev : Char) (pre rest : List Char), '<' ∉ a →
    tileGo prev pre (a ++ rest) = tileGo (a.getLastD prev) (pre ++ a) rest := by
  induction a with
  | nil => intro prev pre rest _; simp
  | cons c a' ih =>
    intro prev pre rest h
    have hc : (c == '<') = false :=
      beq_eq_false_iff_ne.mpr (fun hh => h (hh ▸ List.mem_cons_self c a'))
    have ha' : '<' ∉ a' := fun hh => h (List.mem_cons_of_mem c hh)
    rw [List.cons_append]
    simp only [tileGo, hc, Bool.false_and, Bool.false_eq_true, if_false]
    rw [ih c (pre ++ [c]) rest ha', List.getLastD_cons, List.append_assoc,
      List.singleton_append]

/-- With no `<` remaining, the scan fails. -/
theorem tileGo_no_split (b : List Char) :
    ∀ (prev : Char) (pre : List Char), '<' ∉ b → tileGo prev pre b = none := by
  induction b with
  | nil => intro prev pre _; rfl
  | cons c b' ih =>
    intro prev pre h
    have hc : (c == '<') = false :=
      beq_eq_false_iff_ne.mpr (fun hh => h (hh ▸ List.mem_cons_self c b'))
    have hb' : '<' ∉ b' := fun hh => h (List.mem_cons_of_mem c hh)
    simp only [tileGo, hc, Bool.false_and, Bool.false_eq_true, if_false]
    exact ih c (pre ++ [c]) hb'

/-- `(.*?)>$` on `b ++ ['>']` captures exactly `b`. -/
theorem tileTail_closed (b : List Char) : tileTail (b ++ ['>']) = some b := by
  simp [tileTail, List.reverse_append]

/-!
## Claim theorems
-/

/-- Claim C1 (code bug): for a special-set directive name the generic builder is
supposed to attach a raw-content child holding the body text verbatim, but
`Directive.run` constructs `docutils.nodes.FixedTextElement()` with no
arguments, so the attached raw child's text is empty — the body `print(1)` is
dropped rather than preserved. -/
theorem claim_C1_special_directive_raw_child_is_empty :
    Directive_run "code-block" [] ".. code-block:: python\n   print(1)"
        ["print(1)".toList] =
      [Node.directive "code-block" [] [Node.raw ""]] ∧ ("" : String) ≠ "print(1)" :=
  ⟨rfl, by decide⟩

/-- Claim C2 (counterexample): the claim states that for text of the form
`A<B<C>` the split is at the last unescaped `<` giving label `A<B` and target
`C`.  The lazy `.+?` in `PAT_EXPLICIT_TILE` splits at the first `<` instead:
the target is `B<C`, not `C`, and the label is `A`, not `A<B`. -/
theorem claim_C2_counterexample :
    (role_init "r" "A<B<C>" 5).target = "B<C" ∧
      (role_init "r" "A<B<C>" 5).target ≠ "C" ∧
      (role_init "r" "A<B<C>" 5).label = RoleLabel.taggedText "A" 5 := by
  decide

/-- Claim C2 (amended): the role builder splits at the *first* unescaped `<`
(the lazy `.+?` keeps the label minimal) whenever the text ends in `>`: the
label is the text before that `<` with trailing whitespace dropped, the target
— possibly empty — is everything between that `<` and the final `>`; a `\x00`
immediately before a `<` suppresses a split there; when nothing matches, label
and target both equal the full text.  In particular `A<B<C>` yields label `A`
and target `B<C`. -/
theorem claim_C2_amended :
    (∀ a b : List Char, a ≠ [] → '<' ∉ a → a.getLast? ≠ some '\x00' →
      PAT_EXPLICIT_TILE_match (a ++ '<' :: (b ++ ['>'])) = some (tileLabel a, b)) ∧
    (∀ a b : List Char, '<' ∉ a → '<' ∉ b →
      PAT_EXPLICIT_TILE_match (a ++ '\x00' :: '<' :: b) = none) ∧
    (∀ (name text : String) (lineno : Nat), PAT_EXPLICIT_TILE_match text.toList = none →
      role_init name text lineno = ⟨name, text, .plain text, text⟩) ∧
    (role_init "r2" "A<B<C>" 7).label = RoleLabel.taggedText "A" 7 ∧
    (role_init "r2" "A<B<C>" 7).target = "B<C" := by
  have hsupp : ∀ (prev : Char) (pre b : List Char), '<' ∉ b →
      tileGo prev pre ('\x00' :: '<' :: b) = none := by
    intro prev pre b hb
    simp only [tileGo, show (('\x00' : Char) == '<') = false from by decide, Bool.false_and,
      Bool.false_eq_true, if_false,
      show (('<' : Char) == '<' && ('\x00' : Char) != '\x00') = false from by decide]
    exact tileGo_no_split b _ _ hb
  refine ⟨?_, ?_, ?_, by decide, by decide⟩
  · intro a b ha hlt hlast
    cases a with
    | nil => exact absurd rfl ha
    | cons c a' =>
      have ha' : '<' ∉ a' := fun hh => hlt (List.mem_cons_of_mem c hh)
      show tileGo c [c] (a' ++ '<' :: (b ++ ['>'])) = some (tileLabel (c :: a'), b)
      rw [tileGo_through a' c [c] _ ha']
      have hne : a'.getLastD c ≠ '\x00' := by
        rw [List.getLast?_cons] at hlast
        intro hh
        rw [List.getLastD_eq_getLast?] at hh
        exact hlast (by rw [hh])
      have hprev : ((a'.getLastD c) != '\x00') = true := bne_iff_ne.mpr hne
      simp only [tileGo, beq_self_eq_true, hprev, Bool.and_self, Bool.true_and, if_true,
        tileTail_closed, List.singleton_append]
  · intro a b hlta hltb
    cases a with
    | nil =>
      show tileGo '\x00' ['\x00'] ('<' :: b) = none
      simp only [tileGo,
        show (('<' : Char) == '<' && ('\x00' : Char) != '\x00') = false from by decide,
        Bool.false_eq_true, if_false]
      exact tileGo_no_split b _ _ hltb
    | cons c a' =>
      have ha' : '<' ∉ a' := fun hh => hlta (List.mem_cons_of_mem c hh)
      show tileGo c [c] (a' ++ '\x00' :: '<' :: b) = none
      rw [tileGo_through a' c [c] _ ha']
      exact hsupp _ _ b hltb
  · intro name text lineno h
    simp only [role_init, h]

/-- Claim C2 witness: the amended split on `Some Label <some-target>`, the
`\x00` suppression, and the no-match fallback, at concrete inputs. -/
theorem claim_C2_amended_witness :
    PAT_EXPLICIT_TILE_match ("Some Label ".toList ++ '<' :: ("some-target".toList ++ ['>'])) =
        some (tileLabel "Some Label ".toList, "some-target".toList) ∧
      PAT_EXPLICIT_TILE_match ("a".toList ++ '\x00' :: '<' :: "b>".toList) = none ∧
      role_init "r2" "no target" 3 = ⟨"r2", "no target", .plain "no target", "no target"⟩ :=
  ⟨claim_C2_amended.1 "Some Label ".toList "some-target".toList (by decide) (by decide)
      (by decide),
   claim_C2_amended.2.1 "a".toList "b>".toList (by decide) (by decide),
   claim_C2_amended.2.2.1 "r2" "no target" 3 (by decide)⟩

/-- Claim C3 (counterexample): option recovery does not behave as if the base
indentation were locked to the indentation of the first non-blank line when
that indentation is zero.  On the block `.. d::\n:a: 1\n   cont` the claimed
behaviour (`parse_options_lockedBase`) appends the deeper line to the active
key, while the code re-establishes the base at the deeper line's indentation
and terminates there instead. -/
theorem claim_C3_counterexample :
    parse_options_lockedBase ".. d::\n:a: 1\n   cont" =
        [("a".toList, "1\ncont".toList)] ∧
      parse_options ".. d::\n:a: 1\n   cont" = [("a".toList, "1".toList)] ∧
      parse_options_lockedBase ".. d::\n:a: 1\n   cont" ≠
        parse_options ".. d::\n:a: 1\n   cont" := by
  decide

/-- Once the base indentation is established (non-zero), the recovery loop
behaves exactly like the locked-base loop of the spec's description. -/
theorem parseOptsGo_eq_locked_of_base_pos (lines : List (List Char)) :
    ∀ (ck : Option (List Char)) (kv : List (List Char × List Char)) (base : Nat),
    base ≠ 0 →
    parseOptsGo lines ck kv base = parseOptsGoLockedBase lines ck kv (some base) := by
  induction lines with
  | nil => intro ck kv base _; rfl
  | cons line rest ih =>
    intro ck kv base hb
    have hb' : (base == 0) = false := beq_eq_false_iff_ne.mpr hb
    simp only [parseOptsGo, parseOptsGoLockedBase, hb', Bool.false_eq_true, if_false,
      Option.getD_some]
    cases hstr : (pyStrip line).isEmpty
    · simp only [Bool.false_eq_true, if_false]
      cases hm : matchFieldMarker (pyStrip line) with
      | some g => exact ih _ _ _ hb
      | none =>
        cases hib : ((line.takeWhile (· == ' ')).length == base)
        · simp only [Bool.false_eq_true, if_false]
          cases ck with
          | none => exact ih _ _ _ hb
          | some k =>
            cases hke : k.isEmpty
            · simp only [hke, Bool.false_eq_true, if_false]
              exact ih _ _ _ hb
            · simp only [hke, if_true]
              exact ih _ _ _ hb
        · rfl
    · simp only [if_true]
      exact ih _ _ _ hb

/-- When the first non-blank line carries non-zero indentation, the code's
loop (base initialised to the `0` sentinel) agrees with the locked-base loop
of the spec's description. -/
theorem parseOptsGo_eq_locked_of_first_pos (lines : List (List Char)) :
    ∀ (ck : Option (List Char)) (kv : List (List Char × List Char)),
    (∀ l, lines.find? (fun l => !(pyStrip l).isEmpty) = some l →
      (l.takeWhile (· == ' ')).length ≠ 0) →
    parseOptsGo lines ck kv 0 = parseOptsGoLockedBase lines ck kv none := by
  induction lines with
  | nil => intro ck kv _; rfl
  | cons line rest ih =>
    intro ck kv hfirst
    cases hstr : (pyStrip line).isEmpty
    · have hd : (line.takeWhile (· == ' ')).length ≠ 0 := by
        apply hfirst line
        exact List.find?_cons_of_pos _ (by rw [hstr]; rfl)
      simp only [parseOptsGo, parseOptsGoLockedBase, hstr, Bool.false_eq_true, if_false,
        Option.getD_none, beq_self_eq_true, eq_self_iff_true, if_true]
      cases hm : matchFieldMarker (pyStrip line) with
      | some g => exact parseOptsGo_eq_locked_of_base_pos rest _ _ _ hd
      | none =>
        cases hib : ((line.takeWhile (· == ' ')).length == (line.takeWhile (· == ' ')).length)
        · exact absurd hib (by simp)
        · simp only [if_true]
    · have hfind : ∀ l, rest.find? (fun l => !(pyStrip l).isEmpty) = some l →
          (l.takeWhile (· == ' ')).length ≠ 0 := by
        intro l hl
        apply hfirst l
        rw [List.find?_cons_of_neg _ (by rw [hstr]; decide)]
        exact hl
      simp only [parseOptsGo, parseOptsGoLockedBase, hstr, if_true]
      exact ih _ _ hfind

/-- Claim C3 (amended): the indentation of the first non-blank line after the
invocation line becomes the block's base indentation *provided it is
non-zero* — a zero-indentation first line leaves the base unset, so a later,
deeper line re-establishes it and terminates recovery there — and, as before,
the first later non-blank line at exactly base indentation that is not a field
marker terminates option recovery.  Under that proviso the code agrees with
the locked-base description on every block. -/
theorem claim_C3_amended :
    ∀ blockText : String,
      (∀ l, ((pySplit '\n' blockText.toList).drop 1).find?
          (fun l => !(pyStrip l).isEmpty) = some l →
        (l.takeWhile (· == ' ')).length ≠ 0) →
      parse_options blockText = parse_options_lockedBase blockText := by
  intro s h
  unfold parse_options parse_options_lockedBase
  cases hsp : pySplit '\n' s.toList with
  | nil => rfl
  | cons a rest =>
    apply parseOptsGo_eq_locked_of_first_pos
    intro l hl
    refine h l ?_
    rw [hsp]
    simpa using hl

/-- Claim C3 witness: the amended equivalence on the block whose option line
sits at indentation 1 with a deeper continuation line. -/
theorem claim_C3_amended_witness :
    parse_options ".. d::\n :a: 1\n   cont" =
      parse_options_lockedBase ".. d::\n :a: 1\n   cont" := by
  apply claim_C3_amended
  intro l hl
  rw [show (pySplit '\n' (".. d::\n :a: 1\n   cont").toList).drop 1 =
      [" :a: 1".toList, "   cont".toList] from by decide] at hl
  rw [show List.find? (fun l => !(pyStrip l).isEmpty)
      [" :a: 1".toList, "   cont".toList] = some (" :a: 1".toList) from by decide] at hl
  obtain rfl := Option.some.inj hl
  decide

/-- Claim C7 (counterexample): `prepare_viewlist` only appends a separator line
when the last line is non-empty, so it does not ensure *exactly one* trailing
blank line: the text `a\n\n\n` already ends in two empty lines and they are
both kept. -/
theorem claim_C7_counterexample :
    prepare_viewlist "a\n\n\n" 1 = ["a".toList, [], []] ∧
      endsWithExactlyOneBlankLine (prepare_viewlist "a\n\n\n" 1) = false := by
  decide

/-- The margin loop computes the same minimum as a fold over the indentations
of the whitespace-non-blank lines. -/
theorem pvMargin_eq_foldr (ls : List (List Char)) :
    pvMargin ls =
      ((ls.filter (fun l => !(pyLstrip l).isEmpty)).map
          (fun l => l.length - (pyLstrip l).length)).foldr
        (fun n acc => match acc with | none => some n | some m => some (min n m)) none := by
  induction ls with
  | nil => rfl
  | cons l rest ih =>
    cases hb : (pyLstrip l).isEmpty
    · rw [List.filter_cons_of_pos (by rw [hb]; decide)]
      simp only [pvMargin, hb, Bool.false_eq_true, if_false, List.map_cons, List.foldr_cons]
      rw [ih]
      cases ((rest.filter (fun l => !(pyLstrip l).isEmpty)).map
          (fun l => l.length - (pyLstrip l).length)).foldr
        (fun n acc => match acc with | none => some n | some m => some (min n m)) none with
      | none => rfl
      | some m => exact congrArg some (Nat.min_comm m (l.length - (pyLstrip l).length))
    · rw [List.filter_cons_of_neg (by rw [hb]; decide)]
      simp only [pvMargin, hb, if_true]
      exact ih

/-- The trailing-separator step, written once on the spec side via `getLast?`
and once on the code side via `getLastD`, agrees for every list. -/
theorem trailing_separator_eq (R : List (List Char)) :
    (match R.getLast? with
     | some l => if l.isEmpty then R else R ++ [[]]
     | none => R) =
      (if (R.getLastD []).isEmpty then R else R ++ [[]]) := by
  cases hlast : R.getLast? with
  | none => rw [List.getLastD_eq_getLast?, hlast]; rfl
  | some l => rw [List.getLastD_eq_getLast?, hlast]; rfl

/-- Claim C7 (amended): for every text, the re-basing normalization strips the
common leading margin computed over the whitespace-non-blank lines after the
first line, left-strips the first line, drops all leading empty lines, and
appends one trailing empty separator line only when the (non-empty) result
does not already end with one — so the result ends with at least one, though
not always exactly one, trailing blank line. -/
theorem claim_C7_amended :
    ∀ text : String, prepare_viewlist_spec text = prepare_viewlist text 1 := by
  intro text
  dsimp only [prepare_viewlist_spec, prepare_viewlist]
  rw [← pvMargin_eq_foldr, trailing_separator_eq]

/-- Claim C4: when the legacy tabs content fails schema/type validation the
migrator returns exactly one error-marker node — no `tabs` or `tab` directive
node — and reports it at line `lineno + badLine + 1`, where `badLine` is the
offending item's tracked line offset.  (Localisation to the one directive
follows from `run` returning this list normally instead of raising.) -/
theorem claim_C4_legacy_validation_error :
    ∀ (name : String) (lineno : Nat) (content : List (List Char)) (parsed : YamlValue)
      (err : LoadErr) (args : List String) (blockText : String),
      content.any (fun l => l == "tabs:".toList) = true →
      check_type_tabs parsed = .error err →
      TabsDirective_run name lineno content parsed args blockText =
          [Node.errorNode err.msg (lineno + err.badLine + 1)] ∧
        ∀ n ∈ TabsDirective_run name lineno content parsed args blockText,
          nodeName n ≠ some "tabs" ∧ nodeName n ≠ some "tab" := by
  intro name lineno content parsed err args blockText hAny hErr
  have hrun : TabsDirective_run name lineno content parsed args blockText =
      [Node.errorNode err.msg (lineno + err.badLine + 1)] := by
    unfold TabsDirective_run
    rw [hAny]
    simp only [if_true, TabsDirective_legacy, hErr]
  refine ⟨hrun, ?_⟩
  intro n hn
  rw [hrun] at hn
  simp only [List.mem_singleton] at hn
  subst hn
  exact ⟨by simp [nodeName], by simp [nodeName]⟩

/-- Claim C4 witness: a concrete wrong-typed legacy payload (`hidden` holds an
integer) at directive line 10 with tracked offset 3: one error node at line
10 + 3 + 1 = 14. -/
theorem claim_C4_witness :
    TabsDirective_run "tabs" 10 ["tabs:".toList]
        (.mapVal 3 [("hidden", .intVal 1), ("tabs", .listVal [])]) [] ".. tabs::" =
        [Node.errorNode "hidden: expected bool" 14] ∧
      ∀ n ∈ TabsDirective_run "tabs" 10 ["tabs:".toList]
          (.mapVal 3 [("hidden", .intVal 1), ("tabs", .listVal [])]) [] ".. tabs::",
        nodeName n ≠ some "tabs" ∧ nodeName n ≠ some "tab" :=
  claim_C4_legacy_validation_error "tabs" 10 ["tabs:".toList]
    (.mapVal 3 [("hidden", .intVal 1), ("tabs", .listVal [])])
    ⟨"hidden: expected bool", 3⟩ [] ".. tabs::" (by decide) rfl

/-- Claim C5: a directive invoked as `tabs-platforms` whose content contains
the line `tabs:`, with the legacy hidden flag true and items with ids `x` and
`y`, migrates to exactly one `tabs` directive node with options
`hidden: true` then `tabset: "platforms"` in that order, and ordered children
`tab`(x), `tab`(y), each with empty options. -/
theorem claim_C5_tabs_platforms_migration :
    ∀ (lineno troot t1 t2 : Nat) (cx cy : String) (content : List (List Char))
      (args : List String) (blockText : String),
      content.any (fun l => l == "tabs:".toList) = true →
      TabsDirective_run "tabs-platforms" lineno content
          (.mapVal troot
            [("hidden", .boolVal true),
             ("tabs", .listVal
               [.mapVal t1 [("id", .str "x"), ("content", .str cx)],
                .mapVal t2 [("id", .str "y"), ("content", .str cy)]])])
          args blockText =
        [Node.directive "tabs" [("hidden", .bool true), ("tabset", .str "platforms")]
          [Node.directive "tab" []
            [Node.argumentNode "x", Node.parsedBody (prepare_viewlist cx 1)],
           Node.directive "tab" []
            [Node.argumentNode "y", Node.parsedBody (prepare_viewlist cy 1)]]] := by
  intro lineno troot t1 t2 cx cy content args blockText hAny
  unfold TabsDirective_run
  rw [hAny]
  rfl

/-- Claim C5 witness: the migration scenario at concrete inputs. -/
theorem claim_C5_witness :
    TabsDirective_run "tabs-platforms" 7 ["tabs:".toList]
        (.mapVal 0
          [("hidden", .boolVal true),
           ("tabs", .listVal
             [.mapVal 1 [("id", .str "x"), ("content", .str "cx")],
              .mapVal 4 [("id", .str "y"), ("content", .str "cy")]])])
        [] ".. tabs-platforms::" =
      [Node.directive "tabs" [("hidden", .bool true), ("tabset", .str "platforms")]
        [Node.directive "tab" []
          [Node.argumentNode "x", Node.parsedBody (prepare_viewlist "cx" 1)],
         Node.directive "tab" []
          [Node.argumentNode "y", Node.parsedBody (prepare_viewlist "cy" 1)]]] :=
  claim_C5_tabs_platforms_migration 7 0 1 4 "cx" "cy" ["tabs:".toList] []
    ".. tabs-platforms::" (by decide)

/-- Claim C6: name resolution never rejects a name — every `tabs*` directive
name resolves to the tabs builder, every other directive name to the generic
builder, every role name to the generic role handler — and the tabs builder
takes the legacy-migration path exactly when the raw content contains a line
equal to `tabs:`, falling through to the generic builder otherwise. -/
theorem claim_C6_resolution_never_rejects :
    (∀ name : String, (lookup_directive name).1.isSome = true ∧
      ∀ lineno : Nat, (lookup_role name lineno).1.isSome = true) ∧
    (∀ name : String, pyStartswith name.toList "tabs".toList = true →
      lookup_directive name = (some .tabsDirective, [])) ∧
    (∀ name : String, pyStartswith name.toList "tabs".toList = false →
      lookup_directive name = (some .genericDirective, [])) ∧
    (∀ (name : String) (lineno : Nat), lookup_role name lineno = (some .handleRole, [])) ∧
    (∀ (name : String) (lineno : Nat) (content : List (List Char)) (parsed : YamlValue)
       (args : List String) (blockText : String),
      content.any (fun l => l == "tabs:".toList) = false →
      TabsDirective_run name lineno content parsed args blockText =
        Directive_run name args blockText content) ∧
    (∀ (name : String) (lineno : Nat) (content : List (List Char)) (parsed : YamlValue)
       (args : List String) (blockText : String),
      content.any (fun l => l == "tabs:".toList) = true →
      TabsDirective_run name lineno content parsed args blockText =
        TabsDirective_legacy name lineno parsed) := by
  refine ⟨?_, ?_, ?_, ?_, ?_, ?_⟩
  · intro name
    refine ⟨?_, fun _ => rfl⟩
    unfold lookup_directive
    cases hb : pyStartswith name.toList "tabs".toList <;> simp
  · intro name h
    unfold lookup_directive
    rw [h]
    simp
  · intro name h
    unfold lookup_directive
    rw [h]
    simp
  · intro name lineno
    rfl
  · intro name lineno content parsed args blockText h
    unfold TabsDirective_run
    rw [h]
    simp
  · intro name lineno content parsed args blockText h
    unfold TabsDirective_run
    rw [h]
    simp

/-- The checked loop never fails, and agrees with the plain loop, under the
invariant that a non-empty active key is always present in the mapping. -/
theorem parseOptsGoChecked_eq (lines : List (List Char)) :
    ∀ (ck : Option (List Char)) (kv : List (List Char × List Char)) (base : Nat),
    (∀ k, ck = some k → k.isEmpty = false → (dictGet? kv k).isSome = true) →
    parseOptsGoChecked lines ck kv base = some (parseOptsGo lines ck kv base) := by
  induction lines with
  | nil => intro ck kv base _; rfl
  | cons line rest ih =>
    intro ck kv base hInv
    simp only [parseOptsGoChecked, parseOptsGo, pwMatch]
    cases hstr : (pyStrip line).isEmpty
    · simp only [Bool.false_eq_true, if_false]
      cases hm : matchFieldMarker (pyStrip line) with
      | some g =>
        apply ih
        intro k hk _
        obtain rfl : stripColons (pyStrip g) = k := by injection hk
        rw [dictGet?_dictInsert_self]
        rfl
      | none =>
        cases hib : ((line.takeWhile (· == ' ')).length ==
            (if (base == 0) = true then (line.takeWhile (· == ' ')).length else base))
        · simp only [Bool.false_eq_true, if_false]
          cases ck with
          | none => exact ih none kv _ (by intro k hk; exact absurd hk (by simp))
          | some k =>
            cases hke : k.isEmpty
            · have hs := hInv k rfl hke
              obtain ⟨v, hv⟩ := Option.isSome_iff_exists.mp hs
              simp only [hke, hv, Bool.false_eq_true, if_false,
                dictAppend_eq_dictInsert kv k v _ hv]
              apply ih
              intro k' hk' _
              obtain rfl : k = k' := by injection hk'
              rw [dictGet?_dictInsert_self]
              rfl
            · simp only [hke, if_true]
              exact ih (some k) kv _ (by
                intro k' hk' hne
                obtain rfl : k = k' := by injection hk'
                rw [hke] at hne
                exact absurd hne (by simp))
        · simp
    · simp only [if_true]
      exact ih ck kv base hInv

/-- Claim C9: `parse_options` is total — for every input string the checked
model, in which the `PAT_WHITESPACE` assertion, the group-0 assertion and the
`kv[current_key]` lookup are explicit failure points, returns `some` of the
plain model's result.  (Termination is by structural recursion on the line
list, and the value-append branch only runs when the active key is already
present in the mapping.) -/
theorem claim_C9_parse_options_total :
    ∀ blockText : String, parse_optionsChecked blockText = some (parse_options blockText) := by
  intro s
  unfold parse_optionsChecked parse_options
  cases pySplit '\n' s.toList with
  | nil => rfl
  | cons a rest =>
    exact parseOptsGoChecked_eq rest none [] 0 (by intro k hk; exact absurd hk (by simp))

/-- One step of the recovery loop on a field-marker line: the key is inserted
and becomes active regardless of how the line's indentation compares to the
base, because the marker check precedes the indentation comparison. -/
theorem parseOptsGo_marker_step (line : List Char) (rest : List (List Char))
    (ck : Option (List Char)) (kv : List (List Char × List Char)) (base : Nat)
    (g : List Char) (h : matchFieldMarker (pyStrip line) = some g) :
    parseOptsGo (line :: rest) ck kv base =
      parseOptsGo rest (some (stripColons (pyStrip g)))
        (dictInsert kv (stripColons (pyStrip g)) ((pyStrip line).drop g.length))
        (if base == 0 then (line.takeWhile (· == ' ')).length else base) := by
  have hne : (pyStrip line).isEmpty = false := by
    cases hsl : pyStrip line with
    | nil => rw [hsl] at h; simp [matchFieldMarker] at h
    | cons c cs => rfl
  simp only [parseOptsGo, hne, Bool.false_eq_true, if_false, h]

/-- One step of the recovery loop on a non-marker line deeper than the
(established, non-zero) base while a non-empty key is active: the line is
appended to that key's value with its own leading indentation stripped. -/
theorem parseOptsGo_value_step (line : List Char) (rest : List (List Char))
    (k : List Char) (kv : List (List Char × List Char)) (base : Nat)
    (h1 : (pyStrip line).isEmpty = false)
    (h2 : matchFieldMarker (pyStrip line) = none)
    (h3 : (base == 0) = false)
    (h4 : ((line.takeWhile (· == ' ')).length == base) = false)
    (h5 : k.isEmpty = false) :
    parseOptsGo (line :: rest) (some k) kv base =
      parseOptsGo rest (some k)
        (dictAppend kv k ('\n' :: line.drop (line.takeWhile (· == ' ')).length)) base := by
  simp only [parseOptsGo, h1, h2, h3, h4, h5, Bool.false_eq_true, if_false]

/-- Claim C10: a line whose stripped text matches the field-marker pattern
always starts a new key — the recovery loop inserts it and continues with it as
the active key no matter how its indentation compares to the base, because the
field-marker check precedes the indentation comparison — and assignment to an
existing key overwrites the earlier value (last write wins). -/
theorem claim_C10_field_marker_precedence :
    (∀ (line : List Char) (rest : List (List Char)) (ck : Option (List Char))
        (kv : List (List Char × List Char)) (base : Nat) (g : List Char),
      matchFieldMarker (pyStrip line) = some g →
      parseOptsGo (line :: rest) ck kv base =
        parseOptsGo rest (some (stripColons (pyStrip g)))
          (dictInsert kv (stripColons (pyStrip g)) ((pyStrip line).drop g.length))
          (if base == 0 then (line.takeWhile (· == ' ')).length else base)) ∧
    (∀ (kv : List (List Char × List Char)) (k v : List Char),
      dictGet? (dictInsert kv k v) k = some v) :=
  ⟨fun line rest ck kv base g h => parseOptsGo_marker_step line rest ck kv base g h,
   fun kv k v => dictGet?_dictInsert_self kv k v⟩

/-- Claim C10 witness: with active key `a` (value `1`) and base indentation 1,
the deeper line `   :b: 2` starts the new key `b` instead of being appended to
`a`; and re-assigning key `a` overwrites its value. -/
theorem claim_C10_witness :
    parseOptsGo ["   :b: 2".toList] (some "a".toList) [("a".toList, "1".toList)] 1 =
      parseOptsGo [] (some "b".toList)
        (dictInsert [("a".toList, "1".toList)] "b".toList "2".toList) 1 ∧
    dictGet? (dictInsert [("a".toList, "1".toList)] "a".toList "2".toList) "a".toList =
      some "2".toList :=
  ⟨claim_C10_field_marker_precedence.1 "   :b: 2".toList [] (some "a".toList)
      [("a".toList, "1".toList)] 1 ":b: ".toList (by decide),
   claim_C10_field_marker_precedence.2 [("a".toList, "1".toList)] "a".toList "2".toList⟩

/-- Claim C8: for a directive block whose body is `:key: a` followed by more
deeply indented lines `b` and `c`, option recovery returns `"a\nb\nc"` for
`key`, each continuation line's own leading indentation being stripped before
it is appended.  The `:key:` line sits at any positive indentation `n1` (its
base indentation) and the continuation lines at any depths greater than it. -/
theorem claim_C8_multiline_option_value :
    ∀ (inv : List Char) (n1 n2 n3 : Nat),
      '\n' ∉ inv → 0 < n1 → n1 < n2 → n1 < n3 →
      parse_options (String.mk (inv ++ '\n' ::
          ((List.replicate n1 ' ' ++ ":key: a".toList) ++ '\n' ::
            ((List.replicate n2 ' ' ++ "b".toList) ++ '\n' ::
              (List.replicate n3 ' ' ++ "c".toList))))) =
        [("key".toList, "a\nb\nc".toList)] := by
  intro inv n1 n2 n3 hinv hpos h12 h13
  have hl1 : '\n' ∉ (List.replicate n1 ' ' ++ ":key: a".toList) :=
    newline_not_mem_indented _ _ (by decide)
  have hl2 : '\n' ∉ (List.replicate n2 ' ' ++ "b".toList) :=
    newline_not_mem_indented _ _ (by decide)
  have hl3 : '\n' ∉ (List.replicate n3 ' ' ++ "c".toList) :=
    newline_not_mem_indented _ _ (by decide)
  have hsplit : pySplit '\n' (String.mk (inv ++ '\n' ::
      ((List.replicate n1 ' ' ++ ":key: a".toList) ++ '\n' ::
        ((List.replicate n2 ' ' ++ "b".toList) ++ '\n' ::
          (List.replicate n3 ' ' ++ "c".toList))))).toList =
      inv :: (List.replicate n1 ' ' ++ ":key: a".toList) ::
        (List.replicate n2 ' ' ++ "b".toList) ::
          [List.replicate n3 ' ' ++ "c".toList] := by
    show pySplit '\n' (inv ++ '\n' ::
      ((List.replicate n1 ' ' ++ ":key: a".toList) ++ '\n' ::
        ((List.replicate n2 ' ' ++ "b".toList) ++ '\n' ::
          (List.replicate n3 ' ' ++ "c".toList)))) = _
    rw [pySplit_append _ _ _ hinv, pySplit_append _ _ _ hl1, pySplit_append _ _ _ hl2,
        pySplit_no_sep _ _ hl3]
  refine (parse_options_eq_go _ _ _ hsplit).trans ?_
  -- line `:key: a` at indentation n1: starts key `key`, establishes base n1
  have hm1 : matchFieldMarker (pyStrip (List.replicate n1 ' ' ++ ":key: a".toList)) =
      some ":key: ".toList := by
    rw [pyStrip_replicate_append]; decide
  rw [parseOptsGo_marker_step _ _ _ _ _ _ hm1]
  have hkey : stripColons (pyStrip ":key: ".toList) = "key".toList := by decide
  have hval : (pyStrip (List.replicate n1 ' ' ++ ":key: a".toList)).drop
      (":key: ".toList).length = "a".toList := by
    rw [pyStrip_replicate_append]; decide
  have hind1 : ((List.replicate n1 ' ' ++ ":key: a".toList).takeWhile (· == ' ')).length = n1 := by
    rw [takeWhile_space_replicate_append _ _ (by decide), List.length_replicate]
  have h00 : ((0 : Nat) == 0) = true := by decide
  rw [hkey, hval, hind1, if_pos h00]
  -- line `b` at indentation n2 > n1: appended to the active key
  have hb1 : (pyStrip (List.replicate n2 ' ' ++ "b".toList)).isEmpty = false := by
    rw [pyStrip_replicate_append]; decide
  have hb2 : matchFieldMarker (pyStrip (List.replicate n2 ' ' ++ "b".toList)) = none := by
    rw [pyStrip_replicate_append]; decide
  have hb3 : (n1 == 0) = false := by
    rw [beq_eq_false_iff_ne]; omega
  have hb4 : (((List.replicate n2 ' ' ++ "b".toList).takeWhile (· == ' ')).length == n1) =
      false := by
    rw [takeWhile_space_replicate_append _ _ (by decide), List.length_replicate,
      beq_eq_false_iff_ne]
    omega
  rw [parseOptsGo_value_step _ _ _ _ _ hb1 hb2 hb3 hb4 (by decide)]
  have hdrop2 : (List.replicate n2 ' ' ++ "b".toList).drop
      (((List.replicate n2 ' ' ++ "b".toList).takeWhile (· == ' ')).length) = "b".toList := by
    rw [takeWhile_space_replicate_append _ _ (by decide), List.length_replicate,
      drop_replicate_append]
  rw [hdrop2]
  rw [show dictAppend (dictInsert [] "key".toList "a".toList) "key".toList
      ('\n' :: "b".toList) = [("key".toList, "a\nb".toList)] from by decide]
  -- line `c` at indentation n3 > n1: appended as well
  have hc1 : (pyStrip (List.replicate n3 ' ' ++ "c".toList)).isEmpty = false := by
    rw [pyStrip_replicate_append]; decide
  have hc2 : matchFieldMarker (pyStrip (List.replicate n3 ' ' ++ "c".toList)) = none := by
    rw [pyStrip_replicate_append]; decide
  have hc4 : (((List.replicate n3 ' ' ++ "c".toList).takeWhile (· == ' ')).length == n1) =
      false := by
    rw [takeWhile_space_replicate_append _ _ (by decide), List.length_replicate,
      beq_eq_false_iff_ne]
    omega
  rw [parseOptsGo_value_step _ _ _ _ _ hc1 hc2 hb3 hc4 (by decide)]
  have hdrop3 : (List.replicate n3 ' ' ++ "c".toList).drop
      (((List.replicate n3 ' ' ++ "c".toList).takeWhile (· == ' ')).length) = "c".toList := by
    rw [takeWhile_space_replicate_append _ _ (by decide), List.length_replicate,
      drop_replicate_append]
  rw [hdrop3]
  rw [show dictAppend [("key".toList, "a\nb".toList)] "key".toList ('\n' :: "c".toList) =
      [("key".toList, "a\nb\nc".toList)] from by decide]
  rfl

/-- Claim C8 witness: the scenario at indentations 1, 3, 3 under the invocation
line `.. d::`. -/
theorem claim_C8_witness :
    parse_options (String.mk (".. d::".toList ++ '\n' ::
        ((List.replicate 1 ' ' ++ ":key: a".toList) ++ '\n' ::
          ((List.replicate 3 ' ' ++ "b".toList) ++ '\n' ::
            (List.replicate 3 ' ' ++ "c".toList))))) =
      [("key".toList, "a\nb\nc".toList)] :=
  claim_C8_multiline_option_value ".. d::".toList 1 3 3 (by decide) (by decide) (by decide)
    (by decide)

/-- Claim C6 witness: concrete resolutions, and the fall-through on a content
line `tabs: x` that merely starts with — but does not equal — `tabs:`. -/
theorem claim_C6_resolution_witness :
    lookup_directive "tabs-drivers" = (some .tabsDirective, []) ∧
      lookup_directive "note" = (some .genericDirective, []) ∧
      lookup_role "doc" 3 = (some .handleRole, []) ∧
      TabsDirective_run "tabs" 3 ["tabs: x".toList] .nullVal [] ".. tabs::" =
        Directive_run "tabs" [] ".. tabs::" ["tabs: x".toList] :=
  ⟨claim_C6_resolution_never_rejects.2.1 "tabs-drivers" (by decide),
   claim_C6_resolution_never_rejects.2.2.1 "note" (by decide),
   claim_C6_resolution_never_rejects.2.2.2.1 "doc" 3,
   claim_C6_resolution_never_rejects.2.2.2.2.1 "tabs" 3 ["tabs: x".toList] .nullVal []
     ".. tabs::" (by decide)⟩

end Snooty
